import Mathlib

/-
Shallow embedding of the tbtmuse/parser HTTP/1.1 request parser.

Bytes are modelled as Nat values (every byte produced by the Rust code is
below 256).  A parser of nom kind IResult is modelled as a function
returning Option (List Nat × List Nat): none on failure, and on success the
pair (remaining input, matched slice), matching the order of nom results.
All nom combinators used by the source are the complete (non-streaming)
ones from nom 5; each embedding below names the nom function it models.
-/

/-- Header struct from src/http/header.rs: a pair of byte-slice views. -/
structure Header where
  name : List Nat
  value : List Nat
deriving DecidableEq

/-- EMPTY_HEADER from src/http/header.rs. -/
def EMPTY_HEADER : Header := { name := [], value := [] }

/-- ParserError from src/http.rs.  InvalidUtf8Content carries a
Utf8Error payload in the source; the payload is dropped here. -/
inductive ParserError where
  | RequestLine
  | Headers
  | Body
  | ContentLength
  | InvalidUtf8Content
  | Unknown
deriving DecidableEq

namespace http.parse

/-- nom character is_digit range: ASCII 48..57. -/
def is_digit (b : Nat) : Bool := decide (48 ≤ b ∧ b ≤ 57)

/-- nom character is_alphabetic: ASCII 65..90 or 97..122. -/
def is_alphabetic (b : Nat) : Bool :=
  decide ((65 ≤ b ∧ b ≤ 90) ∨ (97 ≤ b ∧ b ≤ 122))

/-- nom character complete crlf: the literal two-byte sequence [13, 10]. -/
def crlf (input : List Nat) : Option (List Nat × List Nat) :=
  match input with
  | b1 :: b2 :: rest => if b1 = 13 ∧ b2 = 10 then some (rest, [13, 10]) else none
  | _ => none

/-- nom bytes complete tag: the literal byte sequence t. -/
def tag (t input : List Nat) : Option (List Nat × List Nat) :=
  if t.isPrefixOf input then some (input.drop t.length, t) else none

/-- nom character complete char, specialized to one byte. -/
def char_byte (c : Nat) (input : List Nat) : Option (List Nat × Nat) :=
  match input with
  | b :: rest => if b = c then some (rest, c) else none
  | [] => none

/-- nom bytes complete take_while: longest prefix satisfying p; never fails. -/
def take_while (p : Nat → Bool) (input : List Nat) : List Nat × List Nat :=
  (input.dropWhile p, input.takeWhile p)

/-- nom bytes complete take_while1: longest prefix satisfying p, at least one byte. -/
def take_while1 (p : Nat → Bool) (input : List Nat) : Option (List Nat × List Nat) :=
  if input.takeWhile p = [] then none
  else some (input.dropWhile p, input.takeWhile p)

/-- nom bytes complete is_not: one or more leading bytes none of which is in bad. -/
def is_not (bad : List Nat) (input : List Nat) : Option (List Nat × List Nat) :=
  take_while1 (fun b => !(bad.contains b)) input

/-- nom bytes complete take: exactly n bytes, failing when fewer remain. -/
def take (n : Nat) (input : List Nat) : Option (List Nat × List Nat) :=
  if n ≤ input.length then some (input.drop n, input.take n) else none

/-- nom bytes complete take_while_m_n on byte slices: with k the length of the
longest prefix satisfying p, fails when k < m and otherwise consumes
min k n bytes. -/
def take_while_m_n (m n : Nat) (p : Nat → Bool) (input : List Nat) :
    Option (List Nat × List Nat) :=
  let k := (input.takeWhile p).length
  if k < m then none
  else some (input.drop (min k n), input.take (min k n))

/-- HEADER_NAME_MAP from src/http.rs: the 256-entry byte_map table
(1 entries become true). -/
def HEADER_NAME_MAP : List Bool :=
  [false, false, false, false, false, false, false, false,
   false, false, false, false, false, false, false, false,
   false, false, false, false, false, false, false, false,
   false, false, false, false, false, false, false, false,
   false, true,  false, true,  true,  true,  true,  true,
   false, false, true,  true,  false, true,  true,  false,
   true,  true,  true,  true,  true,  true,  true,  true,
   true,  true,  false, false, false, false, false, false,
   false, true,  true,  true,  true,  true,  true,  true,
   true,  true,  true,  true,  true,  true,  true,  true,
   true,  true,  true,  true,  true,  true,  true,  true,
   true,  true,  true,  false, false, false, true,  true,
   true,  true,  true,  true,  true,  true,  true,  true,
   true,  true,  true,  true,  true,  true,  true,  true,
   true,  true,  true,  true,  true,  true,  true,  true,
   true,  true,  true,  false, true,  false, true,  false,
   false, false, false, false, false, false, false, false,
   false, false, false, false, false, false, false, false,
   false, false, false, false, false, false, false, false,
   false, false, false, false, false, false, false, false,
   false, false, false, false, false, false, false, false,
   false, false, false, false, false, false, false, false,
   false, false, false, false, false, false, false, false,
   false, false, false, false, false, false, false, false,
   false, false, false, false, false, false, false, false,
   false, false, false, false, false, false, false, false,
   false, false, false, false, false, false, false, false,
   false, false, false, false, false, false, false, false,
   false, false, false, false, false, false, false, false,
   false, false, false, false, false, false, false, false,
   false, false, false, false, false, false, false, false,
   false, false, false, false, false, false, false, false]

/-- is_header_name_token from src/http.rs: table lookup by byte value. -/
def is_header_name_token (b : Nat) : Bool := HEADER_NAME_MAP.getD b false

/-- is_version from src/http.rs: byte in 48..57 or equal to 46. -/
def is_version (b : Nat) : Bool := decide ((48 ≤ b ∧ b ≤ 57) ∨ b = 46)

/-- method from src/http.rs: opt(crlf), then opt(digit0) (digit0 never
fails, so this discards any leading decimal digits), then
take_while_m_n 3 7 is_alphabetic. -/
def method (input : List Nat) : Option (List Nat × List Nat) :=
  let i1 := match crlf input with
    | some (r, _) => r
    | none => input
  let i2 := i1.dropWhile is_digit
  take_while_m_n 3 7 is_alphabetic i2

/-- path from src/http.rs: delimited(tag a space, is_not a space, tag a space). -/
def path (input : List Nat) : Option (List Nat × List Nat) := do
  let (i1, _) ← tag [32] input
  let (i2, v) ← is_not [32] i1
  let (i3, _) ← tag [32] i2
  some (i3, v)

/-- version from src/http.rs: preceded(tag for the 5 bytes of the HTTP
slash literal, take_while1 is_version). -/
def version (input : List Nat) : Option (List Nat × List Nat) := do
  let (i1, _) ← tag [72, 84, 84, 80, 47] input
  take_while1 is_version i1

/-- request_line from src/http.rs: tuple((method, path, version, crlf)). -/
def request_line (input : List Nat) :
    Option (List Nat × (List Nat × List Nat × List Nat × List Nat)) := do
  let (i1, m) ← method input
  let (i2, p) ← path i1
  let (i3, v) ← version i2
  let (i4, c) ← crlf i3
  some (i4, (m, p, v, c))

/-- body from src/http.rs: crlf then take(length). -/
def body (length : Nat) (input : List Nat) : Option (List Nat × List Nat) := do
  let (i1, _) ← crlf input
  take length i1

/-- header from src/http.rs.  The Rust function mutates the given Header
slot: the name field is written as soon as the take_while succeeds (so it
is written even when a later step fails), the value field only on full
success.  It is modelled as returning the updated slot together with
some remaining-input on success, none on failure. -/
def header (input : List Nat) (h : Header) : Header × Option (List Nat) :=
  let (i1, nm) := take_while is_header_name_token input
  let h1 : Header := { h with name := nm }
  match char_byte 58 i1 with
  | none => (h1, none)
  | some (i2, _) =>
    match tag [32] i2 with
    | none => (h1, none)
    | some (i3, _) =>
      match is_not [13, 10] i3 with
      | none => (h1, none)
      | some (i4, v) =>
        match tag [13, 10] i4 with
        | none => (h1, none)
        | some (i5, _) => ({ h1 with value := v }, some i5)

/-- headers_iterator from src/http.rs: walk the slot array in order,
parsing one header per slot; the first parse failure (a nom Error) breaks
the loop benignly, and exhausting the slots also ends it; the loop as a
whole always succeeds (the complete parsers produce only nom Error
failures, never Failure or Incomplete).  Returns the remaining input and
the updated slots. -/
def headers_iterator (input : List Nat) (headers : List Header) :
    List Nat × List Header :=
  match headers with
  | [] => (input, [])
  | h :: hs =>
    match header input h with
    | (h1, some rest) =>
      match headers_iterator rest hs with
      | (i2, hs2) => (i2, h1 :: hs2)
    | (h1, none) => (input, h1 :: hs)

/-- Models the success condition of std str::from_utf8 (strict UTF-8
validation: no overlong forms, no surrogates, maximum U+10FFFF), applied
to the Content-Length header value in Request::parse. -/
def from_utf8_ok : List Nat → Bool
  | [] => true
  | b :: rest =>
    if b ≤ 127 then from_utf8_ok rest
    else if 194 ≤ b ∧ b ≤ 223 then
      match rest with
      | c1 :: rest2 => decide (128 ≤ c1 ∧ c1 ≤ 191) && from_utf8_ok rest2
      | [] => false
    else if b = 224 then
      match rest with
      | c1 :: c2 :: rest2 =>
        decide (160 ≤ c1 ∧ c1 ≤ 191) && decide (128 ≤ c2 ∧ c2 ≤ 191) &&
          from_utf8_ok rest2
      | _ => false
    else if 225 ≤ b ∧ b ≤ 236 then
      match rest with
      | c1 :: c2 :: rest2 =>
        decide (128 ≤ c1 ∧ c1 ≤ 191) && decide (128 ≤ c2 ∧ c2 ≤ 191) &&
          from_utf8_ok rest2
      | _ => false
    else if b = 237 then
      match rest with
      | c1 :: c2 :: rest2 =>
        decide (128 ≤ c1 ∧ c1 ≤ 159) && decide (128 ≤ c2 ∧ c2 ≤ 191) &&
          from_utf8_ok rest2
      | _ => false
    else if 238 ≤ b ∧ b ≤ 239 then
      match rest with
      | c1 :: c2 :: rest2 =>
        decide (128 ≤ c1 ∧ c1 ≤ 191) && decide (128 ≤ c2 ∧ c2 ≤ 191) &&
          from_utf8_ok rest2
      | _ => false
    else if b = 240 then
      match rest with
      | c1 :: c2 :: c3 :: rest2 =>
        decide (144 ≤ c1 ∧ c1 ≤ 191) && decide (128 ≤ c2 ∧ c2 ≤ 191) &&
          decide (128 ≤ c3 ∧ c3 ≤ 191) && from_utf8_ok rest2
      | _ => false
    else if 241 ≤ b ∧ b ≤ 243 then
      match rest with
      | c1 :: c2 :: c3 :: rest2 =>
        decide (128 ≤ c1 ∧ c1 ≤ 191) && decide (128 ≤ c2 ∧ c2 ≤ 191) &&
          decide (128 ≤ c3 ∧ c3 ≤ 191) && from_utf8_ok rest2
      | _ => false
    else if b = 244 then
      match rest with
      | c1 :: c2 :: c3 :: rest2 =>
        decide (128 ≤ c1 ∧ c1 ≤ 143) && decide (128 ≤ c2 ∧ c2 ≤ 191) &&
          decide (128 ≤ c3 ∧ c3 ≤ 191) && from_utf8_ok rest2
      | _ => false
    else false

/-- Models str parse to usize on the bytes of a valid UTF-8 string
(on a 64-bit target): an optional leading plus sign (byte 43), then one
or more ASCII digits, failing on overflow past 2 to the 64 minus 1.
Byte-level and char-level agree on valid UTF-8 because every multi-byte
char starts with a byte at or above 194, which is neither a digit nor
the plus sign. -/
def parse_usize (s : List Nat) : Option Nat :=
  let ds := match s with
    | 43 :: rest => rest
    | _ => s
  if ds = [] then none
  else if ds.all is_digit then
    let v := ds.foldl (fun acc d => acc * 10 + (d - 48)) 0
    if v < 2 ^ 64 then some v else none
  else none

/-- Rust byte-slice lexicographic greater-than (slice Ord on u8):
elementwise comparison, a proper prefix being smaller. -/
def bytes_gt : List Nat → List Nat → Bool
  | [], _ => false
  | _ :: _, [] => true
  | a :: as, b :: bs => if b < a then true else if a < b then false else bytes_gt as bs

/-- The 14 bytes of the Content-Length header name. -/
def content_length : List Nat :=
  [67, 111, 110, 116, 101, 110, 116, 45, 76, 101, 110, 103, 116, 104]

/-- The 17 bytes of the Transfer-Encoding header name. -/
def transfer_encoding : List Nat :=
  [84, 114, 97, 110, 115, 102, 101, 114, 45, 69, 110, 99, 111, 100, 105, 110, 103]

/-- The find predicate in the body-decision phase of Request::parse:
name equals Content-Length and value is byte-lexicographic greater than
the single byte 48, or name equals Transfer-Encoding (Rust precedence:
the conjunction binds tighter than the disjunction). -/
def body_pred (h : Header) : Bool :=
  h.name == content_length && bytes_gt h.value [48] || h.name == transfer_encoding

end http.parse

/-- Request struct from src/http/request.rs. -/
structure Request where
  method : List Nat
  path : List Nat
  version : List Nat
  headers : List Header
  body : List Nat
deriving DecidableEq

/-- Request::new: all byte-slice fields default to empty. -/
def Request.new (headers : List Header) : Request :=
  { method := [], path := [], version := [], headers := headers, body := [] }

/-- Request::parse from src/http/request.rs.  The Rust method mutates
self and returns Result((), ParserError); it is modelled as returning
the error option together with the final state.  The Headers error arm
of the source is unreachable here because headers_iterator always
succeeds. -/
def Request.parse (r : Request) (input : List Nat) : Option ParserError × Request :=
  match http.parse.request_line input with
  | none => (some ParserError.RequestLine, r)
  | some (i1, (m, p, v, _)) =>
    let r1 : Request := { r with method := m, path := p, version := v }
    match http.parse.headers_iterator i1 r1.headers with
    | (i2, hs) =>
      let r2 : Request := { r1 with headers := hs }
      match hs.find? http.parse.body_pred with
      | none => (none, r2)
      | some hd =>
        if hd.name = http.parse.content_length then
          if http.parse.from_utf8_ok hd.value then
            match http.parse.parse_usize hd.value with
            | none => (some ParserError.ContentLength, r2)
            | some n =>
              match http.parse.body n i2 with
              | some (_, b) => (none, { r2 with body := b })
              | none => (some ParserError.Body, r2)
          else (some ParserError.InvalidUtf8Content, r2)
        else (none, r2)

/-- The headers() accessor from src/http/request.rs: scan for the first
slot whose name and value are both empty, keep length 0 when no such
slot exists, and return the prefix of that length. -/
def Request.headers_view (r : Request) : List Header :=
  let len := match r.headers.findIdx? (fun h => h.name.length == 0 && h.value.length == 0) with
    | some i => i
    | none => 0
  r.headers.take len

/-
Helper lemmas about the longest-prefix combinators: a run of bytes
satisfying the predicate followed by input whose head fails it is taken
exactly.
-/

theorem takeWhile_append_of_run {p : Nat → Bool} :
    ∀ (a rest : List Nat), (∀ b ∈ a, p b = true) →
      (∀ c, rest.head? = some c → p c = false) →
      (a ++ rest).takeWhile p = a := by
  intro a
  induction a with
  | nil =>
    intro rest _ hr
    cases rest with
    | nil => rfl
    | cons c t => simp [List.takeWhile_cons, hr c rfl]
  | cons x xs ih =>
    intro rest ha hr
    have hx : p x = true := ha x (List.mem_cons_self x xs)
    have hxs := ih rest (fun b hb => ha b (List.mem_cons_of_mem x hb)) hr
    simp [List.takeWhile_cons, hx, hxs]

theorem dropWhile_append_of_run {p : Nat → Bool} :
    ∀ (a rest : List Nat), (∀ b ∈ a, p b = true) →
      (∀ c, rest.head? = some c → p c = false) →
      (a ++ rest).dropWhile p = rest := by
  intro a
  induction a with
  | nil =>
    intro rest _ hr
    cases rest with
    | nil => rfl
    | cons c t => simp [List.dropWhile_cons, hr c rfl]
  | cons x xs ih =>
    intro rest ha hr
    have hx : p x = true := ha x (List.mem_cons_self x xs)
    have hxs := ih rest (fun b hb => ha b (List.mem_cons_of_mem x hb)) hr
    simp [List.dropWhile_cons, hx, hxs]

set_option maxRecDepth 8192 in
/-- C9: for every byte b, is_header_name_token b is true exactly when b is
an ASCII letter, an ASCII digit, or one of the fifteen RFC7230 token
punctuation bytes; every other byte below 256 (controls, space, colon,
high-bit bytes) is rejected. -/
theorem c9_header_name_token_set :
    ∀ b : Nat, b < 256 →
      (http.parse.is_header_name_token b = true ↔
        ((65 ≤ b ∧ b ≤ 90) ∨ (97 ≤ b ∧ b ≤ 122) ∨ (48 ≤ b ∧ b ≤ 57) ∨
          b ∈ ([33, 35, 36, 37, 38, 39, 42, 43, 45, 46, 94, 95, 96, 124, 126] : List Nat))) := by
  decide

/-- Witness for c9_header_name_token_set at the colon byte 58. -/
theorem c9_header_name_token_set_witness :
    http.parse.is_header_name_token 58 = true ↔
      ((65 ≤ 58 ∧ 58 ≤ 90) ∨ (97 ≤ 58 ∧ 58 ≤ 122) ∨ (48 ≤ 58 ∧ 58 ≤ 57) ∨
        58 ∈ ([33, 35, 36, 37, 38, 39, 42, 43, 45, 46, 94, 95, 96, 124, 126] : List Nat)) :=
  c9_header_name_token_set 58 (by decide)

/-- The C1 failing input: a request line followed by three well-formed
header lines (names A, B, C) and the empty line:
GET / HTTP/1.1, A: x, B: y, C: z. -/
def c1_input : List Nat :=
  [71, 69, 84, 32, 47, 32, 72, 84, 84, 80, 47, 49, 46, 49, 13, 10,
   65, 58, 32, 120, 13, 10,
   66, 58, 32, 121, 13, 10,
   67, 58, 32, 122, 13, 10,
   13, 10]

/-- C1: with a header-slot array of capacity 2 and a message carrying 3
well-formed header lines, parse succeeds and every slot is populated,
but the headers() accessor exposes 0 headers, not the 2 the claim
promises: its scan for the first empty sentinel slot finds none and the
length variable keeps its initial value 0.  This theorem evaluates the
code at the failing input. -/
theorem c1_capacity_overflow_headers_view :
    (Request.parse (Request.new [EMPTY_HEADER, EMPTY_HEADER]) c1_input).1 = none ∧
    (Request.parse (Request.new [EMPTY_HEADER, EMPTY_HEADER]) c1_input).2.headers =
      [{ name := [65], value := [120] }, { name := [66], value := [121] }] ∧
    (Request.parse (Request.new [EMPTY_HEADER, EMPTY_HEADER]) c1_input).2.headers_view = [] := by
  decide

/-- C3 counterexample: on an input of 8 consecutive ASCII letters the
method parser does not fail; it succeeds, consuming the first 7 letters
and leaving the eighth unconsumed (nom take_while_m_n takes at most n
bytes and does not fail when more are available). -/
theorem c3_method_eight_letters_counterexample :
    http.parse.method [65, 66, 67, 68, 69, 70, 71, 72] =
      some ([72], [65, 66, 67, 68, 69, 70, 71]) := by
  decide

/-- C7 counterexample: on an input beginning with a colon (empty header
name) followed by one space, the value byte 118 and CRLF, the
header-field parser succeeds and populates the slot with an empty name,
contradicting the claim that an input with an empty name part always
fails. -/
theorem c7_empty_name_counterexample :
    http.parse.header [58, 32, 118, 13, 10] EMPTY_HEADER =
      ({ name := [], value := [118] }, some []) := by
  decide

theorem crlf_eq_none_of_head {input : List Nat}
    (h : ∀ c, input.head? = some c → c ≠ 13) : http.parse.crlf input = none := by
  cases input with
  | nil => rfl
  | cons b1 t =>
    cases t with
    | nil => rfl
    | cons b2 r =>
      have hb : b1 ≠ 13 := h b1 rfl
      simp [http.parse.crlf, hb]

theorem tag_self_append (t r : List Nat) : http.parse.tag t (t ++ r) = some (r, t) := by
  have hp : t.isPrefixOf (t ++ r) = true := by
    rw [ List.isPrefixOf_iff_prefix]
    exact List.prefix_append t r
  simp [http.parse.tag, hp, List.drop_left]

theorem take_while1_run {p : Nat → Bool} {a rest : List Nat}
    (ha : ∀ b ∈ a, p b = true) (hne : a ≠ [])
    (hr : ∀ c, rest.head? = some c → p c = false) :
    http.parse.take_while1 p (a ++ rest) = some (rest, a) := by
  have ht := takeWhile_append_of_run a rest ha hr
  have hd := dropWhile_append_of_run a rest ha hr
  simp [http.parse.take_while1, ht, hd, hne]

theorem is_not_run {bad : List Nat} {a rest : List Nat}
    (ha : ∀ b ∈ a, bad.contains b = false) (hne : a ≠ [])
    (hr : ∀ c, rest.head? = some c → bad.contains c = true) :
    http.parse.is_not bad (a ++ rest) = some (rest, a) := by
  unfold http.parse.is_not
  exact take_while1_run (fun b hb => by rw [ha b hb]; rfl) hne
    (fun c hc => by rw [hr c hc]; rfl)

theorem alpha_ne_13 {b : Nat} (h : http.parse.is_alphabetic b = true) : b ≠ 13 := by
  simp only [http.parse.is_alphabetic, decide_eq_true_eq] at h
  omega

theorem alpha_not_digit {b : Nat} (h : http.parse.is_alphabetic b = true) :
    http.parse.is_digit b = false := by
  simp only [http.parse.is_alphabetic, decide_eq_true_eq] at h
  simp only [http.parse.is_digit, decide_eq_false_iff_not]
  omega

theorem method_run {M rest : List Nat}
    (hM : ∀ b ∈ M, http.parse.is_alphabetic b = true)
    (hM3 : 3 ≤ M.length) (hM7 : M.length ≤ 7)
    (hr : ∀ c, rest.head? = some c → http.parse.is_alphabetic c = false) :
    http.parse.method (M ++ rest) = some (rest, M) := by
  cases M with
  | nil => simp at hM3
  | cons x xs =>
    have hx : http.parse.is_alphabetic x = true := hM x (List.mem_cons_self x xs)
    have hcrlf : http.parse.crlf ((x :: xs) ++ rest) = none := by
      apply crlf_eq_none_of_head
      intro c hc
      simp only [List.cons_append, List.head?_cons, Option.some.injEq] at hc
      exact hc ▸ alpha_ne_13 hx
    have hdig : ((x :: xs) ++ rest).dropWhile http.parse.is_digit = (x :: xs) ++ rest := by
      rw [List.cons_append, List.dropWhile_cons_of_neg]
      rw [alpha_not_digit hx]
      simp
    have htw : ((x :: xs) ++ rest).takeWhile http.parse.is_alphabetic = x :: xs :=
      takeWhile_append_of_run _ _ hM hr
    have hk : ¬((x :: xs).length < 3) := by omega
    have hmin : min (x :: xs).length 7 = (x :: xs).length := by
      have : (x :: xs).length ≤ 7 := hM7
      omega
    simp only [http.parse.method, hcrlf, http.parse.take_while_m_n, hdig, htw, hk,
      if_false, hmin, List.drop_left, List.take_left]

theorem tag_space_cons (r : List Nat) : http.parse.tag [32] (32 :: r) = some (r, [32]) :=
  tag_self_append [32] r

theorem tag_http_cons (r : List Nat) :
    http.parse.tag [72, 84, 84, 80, 47] (72 :: 84 :: 84 :: 80 :: 47 :: r) =
      some (r, [72, 84, 84, 80, 47]) :=
  tag_self_append [72, 84, 84, 80, 47] r

/-- C2: a well-formed request line METHOD SP TARGET SP HTTP/ VERSION CRLF
(METHOD 3 to 7 ASCII letters, TARGET a nonempty run of non-space bytes,
VERSION a nonempty run of bytes from digits and 46) parses to exactly
(METHOD, TARGET, VERSION), leaving exactly the bytes after the
terminating CRLF unconsumed. -/
theorem c2_request_line_exact (M T V rest : List Nat)
    (hM : ∀ b ∈ M, http.parse.is_alphabetic b = true)
    (hM3 : 3 ≤ M.length) (hM7 : M.length ≤ 7)
    (hT : ∀ b ∈ T, b ≠ 32) (hTne : T ≠ [])
    (hV : ∀ b ∈ V, http.parse.is_version b = true) (hVne : V ≠ []) :
    http.parse.request_line
        (M ++ 32 :: (T ++ 32 :: (72 :: 84 :: 84 :: 80 :: 47 :: (V ++ 13 :: 10 :: rest)))) =
      some (rest, (M, T, V, [13, 10])) := by
  have hmethod :
      http.parse.method (M ++ 32 :: (T ++ 32 :: (72 :: 84 :: 84 :: 80 :: 47 :: (V ++ 13 :: 10 :: rest)))) =
        some (32 :: (T ++ 32 :: (72 :: 84 :: 84 :: 80 :: 47 :: (V ++ 13 :: 10 :: rest))), M) := by
    apply method_run hM hM3 hM7
    intro c hc
    simp only [List.head?_cons, Option.some.injEq] at hc
    subst hc
    decide
  have hisnot :
      http.parse.is_not [32] (T ++ 32 :: (72 :: 84 :: 84 :: 80 :: 47 :: (V ++ 13 :: 10 :: rest))) =
        some (32 :: (72 :: 84 :: 84 :: 80 :: 47 :: (V ++ 13 :: 10 :: rest)), T) := by
    apply is_not_run
    · intro b hb
      have hb32 : b ≠ 32 := hT b hb
      simp [hb32]
    · exact hTne
    · intro c hc
      simp only [List.head?_cons, Option.some.injEq] at hc
      subst hc
      decide
  have hpath :
      http.parse.path (32 :: (T ++ 32 :: (72 :: 84 :: 84 :: 80 :: 47 :: (V ++ 13 :: 10 :: rest)))) =
        some (72 :: 84 :: 84 :: 80 :: 47 :: (V ++ 13 :: 10 :: rest), T) := by
    simp only [http.parse.path, tag_space_cons, Option.bind_eq_bind, Option.some_bind,
      hisnot]
  have htwv : http.parse.take_while1 http.parse.is_version (V ++ 13 :: 10 :: rest) =
      some (13 :: 10 :: rest, V) := by
    apply take_while1_run hV hVne
    intro c hc
    simp only [List.head?_cons, Option.some.injEq] at hc
    subst hc
    decide
  have hversion :
      http.parse.version (72 :: 84 :: 84 :: 80 :: 47 :: (V ++ 13 :: 10 :: rest)) =
        some (13 :: 10 :: rest, V) := by
    simp only [http.parse.version, tag_http_cons, Option.bind_eq_bind, Option.some_bind,
      htwv]
  have hcrlf2 : http.parse.crlf (13 :: 10 :: rest) = some (rest, [13, 10]) := by
    simp [http.parse.crlf]
  simp only [http.parse.request_line, hmethod, Option.bind_eq_bind, Option.some_bind,
    hpath, hversion, hcrlf2]

/-- Witness for c2_request_line_exact: the request line GET / HTTP/1.1
followed by the byte 120. -/
theorem c2_request_line_exact_witness :
    http.parse.request_line
        ([71, 69, 84] ++ 32 :: ([47] ++ 32 :: (72 :: 84 :: 84 :: 80 :: 47 :: ([49, 46, 49] ++ 13 :: 10 :: [120])))) =
      some ([120], ([71, 69, 84], [47], [49, 46, 49], [13, 10])) :=
  c2_request_line_exact [71, 69, 84] [47] [49, 46, 49] [120]
    (by decide) (by decide) (by decide) (by decide) (by decide) (by decide) (by decide)

theorem digit_ne_13 {b : Nat} (h : http.parse.is_digit b = true) : b ≠ 13 := by
  simp only [http.parse.is_digit, decide_eq_true_eq] at h
  omega

/-- C3 amended: after optionally discarding one leading CRLF and then any
leading decimal digits, the method parser takes the longest leading run
of ASCII letters: it fails when that run is shorter than 3 bytes (so 2
consecutive letters fail), and otherwise succeeds consuming at most 7 of
them (so 8 consecutive letters succeed, yielding the first 7 and leaving
the eighth unconsumed). -/
theorem c3_method_amended (c : Bool) (ds a rest : List Nat)
    (hds : ∀ b ∈ ds, http.parse.is_digit b = true)
    (ha : ∀ b ∈ a, http.parse.is_alphabetic b = true)
    (hane : a ≠ [])
    (hrest : ∀ b, rest.head? = some b → http.parse.is_alphabetic b = false) :
    http.parse.method ((if c then [13, 10] else []) ++ (ds ++ (a ++ rest))) =
      if 3 ≤ a.length then some (a.drop 7 ++ rest, a.take 7) else none := by
  obtain ⟨x, xs, rfl⟩ := List.exists_cons_of_ne_nil hane
  have hx : http.parse.is_alphabetic x = true := ha x (List.mem_cons_self x xs)
  have hhead : ∀ e, (ds ++ ((x :: xs) ++ rest)).head? = some e → e ≠ 13 := by
    intro e he
    cases ds with
    | nil =>
      simp only [List.nil_append, List.cons_append, List.head?_cons,
        Option.some.injEq] at he
      exact he ▸ alpha_ne_13 hx
    | cons d dt =>
      simp only [List.cons_append, List.head?_cons, Option.some.injEq] at he
      exact he ▸ digit_ne_13 (hds d (List.mem_cons_self d dt))
  have hdig : (ds ++ ((x :: xs) ++ rest)).dropWhile http.parse.is_digit = (x :: xs) ++ rest := by
    apply dropWhile_append_of_run ds ((x :: xs) ++ rest) hds
    intro e he
    simp only [List.cons_append, List.head?_cons, Option.some.injEq] at he
    exact he ▸ alpha_not_digit hx
  have htw : ((x :: xs) ++ rest).takeWhile http.parse.is_alphabetic = x :: xs :=
    takeWhile_append_of_run _ _ ha hrest
  have hmain : http.parse.take_while_m_n 3 7 http.parse.is_alphabetic ((x :: xs) ++ rest) =
      if 3 ≤ (x :: xs).length then some ((x :: xs).drop 7 ++ rest, (x :: xs).take 7) else none := by
    simp only [http.parse.take_while_m_n, htw]
    by_cases h3 : 3 ≤ (x :: xs).length
    · have hnl : ¬((x :: xs).length < 3) := by omega
      rw [if_neg hnl, if_pos h3]
      by_cases h7 : (x :: xs).length ≤ 7
      · have hm : min (x :: xs).length 7 = (x :: xs).length := by omega
        rw [hm, List.drop_append_of_le_length (Nat.le_refl _),
          List.take_append_of_le_length (Nat.le_refl _)]
        rw [List.drop_of_length_le (Nat.le_refl _), List.drop_of_length_le h7,
          List.take_of_length_le (Nat.le_refl _), List.take_of_length_le h7]
      · have hm : min (x :: xs).length 7 = 7 := by omega
        have h7l : 7 ≤ (x :: xs).length := by omega
        rw [hm, List.drop_append_of_le_length h7l, List.take_append_of_le_length h7l]
    · have hnl : (x :: xs).length < 3 := by omega
      rw [if_pos hnl, if_neg h3]
  cases c with
  | true =>
    have hcrlf : http.parse.crlf ([13, 10] ++ (ds ++ ((x :: xs) ++ rest))) =
        some (ds ++ ((x :: xs) ++ rest), [13, 10]) := by
      simp [http.parse.crlf]
    show http.parse.method ([13, 10] ++ (ds ++ ((x :: xs) ++ rest))) =
      if 3 ≤ (x :: xs).length then some ((x :: xs).drop 7 ++ rest, (x :: xs).take 7) else none
    rw [http.parse.method, hcrlf, hdig]
    exact hmain
  | false =>
    have hcrlf : http.parse.crlf ([] ++ (ds ++ ((x :: xs) ++ rest))) = none := by
      simp only [List.nil_append]
      exact crlf_eq_none_of_head hhead
    show http.parse.method ([] ++ (ds ++ ((x :: xs) ++ rest))) =
      if 3 ≤ (x :: xs).length then some ((x :: xs).drop 7 ++ rest, (x :: xs).take 7) else none
    rw [http.parse.method, hcrlf]
    show http.parse.take_while_m_n 3 7 http.parse.is_alphabetic
        (([] ++ (ds ++ ((x :: xs) ++ rest))).dropWhile http.parse.is_digit) =
      if 3 ≤ (x :: xs).length then some ((x :: xs).drop 7 ++ rest, (x :: xs).take 7) else none
    rw [List.nil_append, hdig]
    exact hmain

/-- Witness for c3_method_amended: one leading CRLF and the digit 49 are
discarded, then the 3 letters GET parse; the next bytes 32, 47 remain. -/
theorem c3_method_amended_witness :
    http.parse.method ((if true then [13, 10] else []) ++ ([49] ++ ([71, 69, 84] ++ [32, 47]))) =
      if 3 ≤ ([71, 69, 84] : List Nat).length then
        some (([71, 69, 84] : List Nat).drop 7 ++ [32, 47], ([71, 69, 84] : List Nat).take 7)
      else none :=
  c3_method_amended true [49] [71, 69, 84] [32, 47]
    (by decide) (by decide) (by decide) (by decide)

theorem token_58_false : http.parse.is_header_name_token 58 = false := by decide

theorem tag_crlf_cons (r : List Nat) :
    http.parse.tag [13, 10] (13 :: 10 :: r) = some (r, [13, 10]) :=
  tag_self_append [13, 10] r

theorem header_name_split {nm X : List Nat}
    (hnm : ∀ b ∈ nm, http.parse.is_header_name_token b = true) :
    (nm ++ 58 :: X).takeWhile http.parse.is_header_name_token = nm ∧
    (nm ++ 58 :: X).dropWhile http.parse.is_header_name_token = 58 :: X := by
  constructor
  · apply takeWhile_append_of_run nm (58 :: X) hnm
    intro c hc
    simp only [List.head?_cons, Option.some.injEq] at hc
    exact hc ▸ token_58_false
  · apply dropWhile_append_of_run nm (58 :: X) hnm
    intro c hc
    simp only [List.head?_cons, Option.some.injEq] at hc
    exact hc ▸ token_58_false

theorem header_success (nm v rest : List Nat) (h : Header)
    (hnm : ∀ b ∈ nm, http.parse.is_header_name_token b = true)
    (hv : ∀ b ∈ v, b ≠ 13 ∧ b ≠ 10) (hvne : v ≠ []) :
    http.parse.header (nm ++ 58 :: 32 :: (v ++ 13 :: 10 :: rest)) h =
      ({ name := nm, value := v }, some rest) := by
  obtain ⟨htk, hdr⟩ := header_name_split (X := 32 :: (v ++ 13 :: 10 :: rest)) hnm
  have hchar : http.parse.char_byte 58 (58 :: 32 :: (v ++ 13 :: 10 :: rest)) =
      some (32 :: (v ++ 13 :: 10 :: rest), 58) := by
    simp [http.parse.char_byte]
  have htag := tag_space_cons (v ++ 13 :: 10 :: rest)
  have hisnot : http.parse.is_not [13, 10] (v ++ 13 :: 10 :: rest) =
      some (13 :: 10 :: rest, v) := by
    apply is_not_run
    · intro b hb
      obtain ⟨h13, h10⟩ := hv b hb
      simp [h13, h10]
    · exact hvne
    · intro c hc
      simp only [List.head?_cons, Option.some.injEq] at hc
      subst hc
      decide
  simp only [http.parse.header, http.parse.take_while, htk, hdr, hchar, htag, hisnot,
    tag_crlf_cons]

theorem header_no_crlf (nm v : List Nat) (h : Header)
    (hnm : ∀ b ∈ nm, http.parse.is_header_name_token b = true)
    (hv : ∀ b ∈ v, b ≠ 13 ∧ b ≠ 10) :
    http.parse.header (nm ++ 58 :: 32 :: v) h = ({ h with name := nm }, none) := by
  obtain ⟨htk, hdr⟩ := header_name_split (X := 32 :: v) hnm
  have hchar : http.parse.char_byte 58 (58 :: 32 :: v) = some (32 :: v, 58) := by
    simp [http.parse.char_byte]
  have htag := tag_space_cons v
  by_cases hv0 : v = []
  · subst hv0
    simp only [http.parse.header, http.parse.take_while, htk, hdr, hchar, htag]
    rfl
  · have hisnot : http.parse.is_not [13, 10] (v ++ []) = some ([], v) := by
      apply is_not_run
      · intro b hb
        obtain ⟨h13, h10⟩ := hv b hb
        simp [h13, h10]
      · exact hv0
      · intro c hc
        simp at hc
    rw [List.append_nil] at hisnot
    simp only [http.parse.header, http.parse.take_while, htk, hdr, hchar, htag, hisnot]
    rfl

/-- C7 amended: the header-field parser does fail when the terminating
CRLF pattern is absent, but a name with no legal-token bytes is not
rejected: an input beginning with the colon byte (empty name part)
followed by one space, a nonempty CR/LF-free value and CRLF parses
successfully and populates the slot with an empty name.  (Taking nm = []
below gives the empty-name case; on failure the slot keeps its old value
but its name field has already been overwritten.) -/
theorem c7_header_amended (nm v rest : List Nat) (h : Header)
    (hnm : ∀ b ∈ nm, http.parse.is_header_name_token b = true)
    (hv : ∀ b ∈ v, b ≠ 13 ∧ b ≠ 10) (hvne : v ≠ []) :
    http.parse.header (nm ++ 58 :: 32 :: (v ++ 13 :: 10 :: rest)) h =
      ({ name := nm, value := v }, some rest) ∧
    http.parse.header (nm ++ 58 :: 32 :: v) h = ({ h with name := nm }, none) :=
  ⟨header_success nm v rest h hnm hv hvne, header_no_crlf nm v h hnm hv⟩

/-- Witness for c7_header_amended: the empty name, value byte 118. -/
theorem c7_header_amended_witness :
    http.parse.header ([] ++ 58 :: 32 :: ([118] ++ 13 :: 10 :: [])) EMPTY_HEADER =
      ({ name := [], value := [118] }, some []) ∧
    http.parse.header ([] ++ 58 :: 32 :: [118]) EMPTY_HEADER =
      ({ EMPTY_HEADER with name := [] }, none) :=
  c7_header_amended [] [118] [] EMPTY_HEADER (by decide) (by decide) (by decide)

/-- C10: a header line whose value part is empty (name, colon, space,
immediately CRLF) makes the header-field parser fail (the value must be
at least one non-CR/LF byte), and the collection loop treats this
failure as the benign end of the header block: it stops, leaves the
input position unchanged, and stores no value in the slot (only the
name field of the slot under attempt has been overwritten). -/
theorem c10_empty_value_end_of_headers (nm rest : List Nat) (h : Header) (hs : List Header)
    (hnm : ∀ b ∈ nm, http.parse.is_header_name_token b = true) :
    http.parse.header (nm ++ 58 :: 32 :: 13 :: 10 :: rest) h = ({ h with name := nm }, none) ∧
    http.parse.headers_iterator (nm ++ 58 :: 32 :: 13 :: 10 :: rest) (h :: hs) =
      (nm ++ 58 :: 32 :: 13 :: 10 :: rest, { h with name := nm } :: hs) := by
  obtain ⟨htk, hdr⟩ := header_name_split (X := 32 :: 13 :: 10 :: rest) hnm
  have hchar : http.parse.char_byte 58 (58 :: 32 :: 13 :: 10 :: rest) =
      some (32 :: 13 :: 10 :: rest, 58) := by
    simp [http.parse.char_byte]
  have htag := tag_space_cons (13 :: 10 :: rest)
  have hisnot : http.parse.is_not [13, 10] (13 :: 10 :: rest) = none := by
    simp [http.parse.is_not, http.parse.take_while1]
  have hh : http.parse.header (nm ++ 58 :: 32 :: 13 :: 10 :: rest) h =
      ({ h with name := nm }, none) := by
    simp only [http.parse.header, http.parse.take_while, htk, hdr, hchar, htag, hisnot]
  refine ⟨hh, ?_⟩
  simp only [http.parse.headers_iterator, hh]

/-- Witness for c10_empty_value_end_of_headers: the header name Host
followed by colon, space, CRLF. -/
theorem c10_empty_value_end_of_headers_witness :
    http.parse.header ([72, 111, 115, 116] ++ 58 :: 32 :: 13 :: 10 :: []) EMPTY_HEADER =
      ({ EMPTY_HEADER with name := [72, 111, 115, 116] }, none) ∧
    http.parse.headers_iterator ([72, 111, 115, 116] ++ 58 :: 32 :: 13 :: 10 :: [])
        (EMPTY_HEADER :: []) =
      ([72, 111, 115, 116] ++ 58 :: 32 :: 13 :: 10 :: [],
        { EMPTY_HEADER with name := [72, 111, 115, 116] } :: []) :=
  c10_empty_value_end_of_headers [72, 111, 115, 116] [] EMPTY_HEADER [] (by decide)

/-- C5: when, after the headers phase, no header slot matches the
body-decision predicate (no slot named Content-Length with value
byte-greater than the byte 48 and no slot named Transfer-Encoding),
parse succeeds and the body stays empty, whatever bytes remain after the
header block. -/
theorem c5_no_length_no_body (r : Request) (input i1 i2 : List Nat)
    (m p v cr : List Nat) (hs : List Header)
    (hrl : http.parse.request_line input = some (i1, (m, p, v, cr)))
    (hhi : http.parse.headers_iterator i1 r.headers = (i2, hs))
    (hfind : hs.find? http.parse.body_pred = none)
    (hbody : r.body = []) :
    (Request.parse r input).1 = none ∧ (Request.parse r input).2.body = [] := by
  simp only [Request.parse, hrl, hhi, hfind, hbody]
  exact ⟨trivial, trivial⟩

/-- The C5 witness input: GET / HTTP/1.1, then Content-Length: 0, the
empty line, and three trailing bytes. -/
def c5_input : List Nat :=
  [71, 69, 84, 32, 47, 32, 72, 84, 84, 80, 47, 49, 46, 49, 13, 10] ++
    (http.parse.content_length ++ [58, 32, 48, 13, 10, 13, 10, 120, 121, 122])

/-- Witness for c5_no_length_no_body: a Content-Length header with value
48 (the digit 0) does not trigger body extraction and the trailing bytes
are ignored. -/
theorem c5_no_length_no_body_witness :
    (Request.parse (Request.new [EMPTY_HEADER, EMPTY_HEADER]) c5_input).1 = none ∧
    (Request.parse (Request.new [EMPTY_HEADER, EMPTY_HEADER]) c5_input).2.body = [] :=
  c5_no_length_no_body (Request.new [EMPTY_HEADER, EMPTY_HEADER]) c5_input
    (http.parse.content_length ++ [58, 32, 48, 13, 10, 13, 10, 120, 121, 122])
    [13, 10, 120, 121, 122]
    [71, 69, 84] [47] [49, 46, 49] [13, 10]
    [{ name := http.parse.content_length, value := [48] }, EMPTY_HEADER]
    (by decide) (by decide) (by decide) (by decide)

theorem find?_append_first {α : Type} (p : α → Bool) :
    ∀ (pre : List α) (te : α) (post : List α), (∀ x ∈ pre, p x = false) →
      p te = true → (pre ++ te :: post).find? p = some te := by
  intro pre
  induction pre with
  | nil =>
    intro te post _ hte
    simp [List.find?, hte]
  | cons a l ih =>
    intro te post hpre hte
    have ha : p a = false := hpre a (List.mem_cons_self a l)
    simp only [List.cons_append, List.find?, ha]
    exact ih te post (fun x hx => hpre x (List.mem_cons_of_mem a hx)) hte

theorem te_pred : ∀ te : Header, te.name = http.parse.transfer_encoding →
    http.parse.body_pred te = true := by
  intro te hte
  simp [http.parse.body_pred, hte]

/-- C6: the body-decision phase scans the populated slots linearly and
the first slot matching the predicate wins: when, after the headers
phase, the slot list splits as pre ++ te :: post where no slot of pre
matches the predicate and te is named Transfer-Encoding, parse performs
no body extraction and succeeds with an empty body, even when a later
slot is a Content-Length header with value byte-greater than the byte 48
and enough body bytes follow the header block. -/
theorem c6_transfer_encoding_first (r : Request) (input i1 i2 : List Nat)
    (m p v cr : List Nat) (pre post : List Header) (te : Header)
    (hrl : http.parse.request_line input = some (i1, (m, p, v, cr)))
    (hhi : http.parse.headers_iterator i1 r.headers = (i2, pre ++ te :: post))
    (hpre : ∀ x ∈ pre, http.parse.body_pred x = false)
    (hte : te.name = http.parse.transfer_encoding)
    (hbody : r.body = []) :
    (Request.parse r input).1 = none ∧ (Request.parse r input).2.body = [] := by
  have hfind : (pre ++ te :: post).find? http.parse.body_pred = some te :=
    find?_append_first http.parse.body_pred pre te post hpre (te_pred te hte)
  have hne : ¬(te.name = http.parse.content_length) := by
    rw [hte]
    decide
  simp only [Request.parse, hrl, hhi, hfind, hne, if_false, hbody]
  exact ⟨trivial, trivial⟩

/-- The C6 witness input: GET / HTTP/1.1, then Transfer-Encoding:
chunked, then Content-Length: 5, the empty line, and the five bytes of
HELLO. -/
def c6_input : List Nat :=
  [71, 69, 84, 32, 47, 32, 72, 84, 84, 80, 47, 49, 46, 49, 13, 10] ++
    (http.parse.transfer_encoding ++ [58, 32, 99, 104, 117, 110, 107, 101, 100, 13, 10] ++
      (http.parse.content_length ++ [58, 32, 53, 13, 10, 13, 10, 72, 69, 76, 76, 79]))

/-- Witness for c6_transfer_encoding_first: Transfer-Encoding in slot 0,
Content-Length 5 in slot 1, five body bytes available, no body taken. -/
theorem c6_transfer_encoding_first_witness :
    (Request.parse (Request.new [EMPTY_HEADER, EMPTY_HEADER]) c6_input).1 = none ∧
    (Request.parse (Request.new [EMPTY_HEADER, EMPTY_HEADER]) c6_input).2.body = [] :=
  c6_transfer_encoding_first (Request.new [EMPTY_HEADER, EMPTY_HEADER]) c6_input
    (http.parse.transfer_encoding ++ [58, 32, 99, 104, 117, 110, 107, 101, 100, 13, 10] ++
      (http.parse.content_length ++ [58, 32, 53, 13, 10, 13, 10, 72, 69, 76, 76, 79]))
    [13, 10, 72, 69, 76, 76, 79]
    [71, 69, 84] [47] [49, 46, 49] [13, 10]
    []
    [{ name := http.parse.content_length, value := [53] }]
    { name := http.parse.transfer_encoding, value := [99, 104, 117, 110, 107, 101, 100] }
    (by decide) (by decide) (by intro x hx; simp at hx) (by decide) (by decide)

/-- C8: phase failures and the frame of Request fields.  A request-line
failure returns the RequestLine error with the whole Request unchanged
(method, path, version, body, and every header slot keep their prior
values).  Any later failure (an error other than RequestLine is only
produced after the request line succeeded) leaves method, path and
version set from the request line and the body unchanged from its prior
(empty) value. -/
theorem c8_phase_frame (r : Request) (input : List Nat) :
    (http.parse.request_line input = none →
      Request.parse r input = (some ParserError.RequestLine, r)) ∧
    (∀ i1 m p v cr e, http.parse.request_line input = some (i1, (m, p, v, cr)) →
      (Request.parse r input).1 = some e →
      (Request.parse r input).2.method = m ∧ (Request.parse r input).2.path = p ∧
      (Request.parse r input).2.version = v ∧ (Request.parse r input).2.body = r.body) := by
  constructor
  · intro hrl
    simp only [Request.parse, hrl]
  · intro i1 m p v cr e hrl herr
    rcases hhi : http.parse.headers_iterator i1 r.headers with ⟨i2, hs⟩
    rcases hf : hs.find? http.parse.body_pred with _ | hd
    · simp only [Request.parse, hrl, hhi, hf] at herr
      simp at herr
    · by_cases hCL : hd.name = http.parse.content_length
      · by_cases hu : http.parse.from_utf8_ok hd.value = true
        · rcases hn : http.parse.parse_usize hd.value with _ | n
          · simp only [Request.parse, hrl, hhi, hf, hCL, if_true, hu, hn]
            simp
          · rcases hb : http.parse.body n i2 with _ | pair
            · simp only [Request.parse, hrl, hhi, hf, hCL, if_true, hu, hn, hb]
              simp
            · simp only [Request.parse, hrl, hhi, hf, hCL, if_true, hu, hn, hb] at herr
              simp at herr
        · have hu2 : http.parse.from_utf8_ok hd.value = false := by
            revert hu
            cases http.parse.from_utf8_ok hd.value <;> simp
          simp only [Request.parse, hrl, hhi, hf, hCL, if_true, hu2]
          simp
      · simp only [Request.parse, hrl, hhi, hf, hCL, if_false] at herr
        simp at herr

/-- Witness for c8_phase_frame: on the empty input the request line
fails and parse returns the RequestLine error with the request
untouched; instantiated for a fresh one-slot request. -/
theorem c8_phase_frame_witness :
    Request.parse (Request.new [EMPTY_HEADER]) [] =
      (some ParserError.RequestLine, Request.new [EMPTY_HEADER]) :=
  (c8_phase_frame (Request.new [EMPTY_HEADER]) []).1 (by decide)

/-- C4: the body extractor succeeds exactly when the input begins with
CRLF followed by at least n bytes, returning exactly the n bytes after
that CRLF; and within parse, when the selected header is Content-Length,
a non-UTF-8 value yields InvalidUtf8Content, a UTF-8 value that is not
an unsigned decimal yields ContentLength, and a failing extraction
(missing CRLF or too few bytes) yields Body. -/
theorem c4_body_contract_and_errors (n : Nat) (input : List Nat) (r : Request) :
    ((http.parse.body n input).isSome = true ↔
      ∃ rest, input = 13 :: 10 :: rest ∧ n ≤ rest.length) ∧
    (∀ rest, input = 13 :: 10 :: rest → n ≤ rest.length →
      http.parse.body n input = some (rest.drop n, rest.take n)) ∧
    (∀ (i1 i2 : List Nat) (m p v cr : List Nat) (hs : List Header) (hd : Header),
      http.parse.request_line input = some (i1, (m, p, v, cr)) →
      http.parse.headers_iterator i1 r.headers = (i2, hs) →
      hs.find? http.parse.body_pred = some hd →
      hd.name = http.parse.content_length →
      ((http.parse.from_utf8_ok hd.value = false →
          (Request.parse r input).1 = some ParserError.InvalidUtf8Content) ∧
       (http.parse.from_utf8_ok hd.value = true →
          http.parse.parse_usize hd.value = none →
          (Request.parse r input).1 = some ParserError.ContentLength) ∧
       (∀ len, http.parse.from_utf8_ok hd.value = true →
          http.parse.parse_usize hd.value = some len →
          http.parse.body len i2 = none →
          (Request.parse r input).1 = some ParserError.Body))) := by
  have hc : ∀ rest2 : List Nat, http.parse.crlf (13 :: 10 :: rest2) = some (rest2, [13, 10]) := by
    intro rest2
    simp [http.parse.crlf]
  refine ⟨?_, ?_, ?_⟩
  · cases input with
    | nil => simp [http.parse.body, http.parse.crlf]
    | cons b1 t =>
      cases t with
      | nil => simp [http.parse.body, http.parse.crlf]
      | cons b2 rest =>
        by_cases h12 : b1 = 13 ∧ b2 = 10
        · obtain ⟨h1, h2⟩ := h12
          subst h1
          subst h2
          simp only [http.parse.body, hc, Option.bind_eq_bind, Option.some_bind,
            http.parse.take]
          constructor
          · intro hh
            by_cases hle : n ≤ rest.length
            · exact ⟨rest, rfl, hle⟩
            · rw [if_neg hle] at hh
              simp at hh
          · rintro ⟨rest2, heq, hle⟩
            injection heq with e1 e2
            injection e2 with e3 e4
            subst e4
            rw [if_pos hle]
            rfl
        · have hcrlf : http.parse.crlf (b1 :: b2 :: rest) = none := by
            simp [http.parse.crlf, h12]
          simp only [http.parse.body, hcrlf, Option.bind_eq_bind, Option.none_bind]
          constructor
          · intro hh
            simp at hh
          · rintro ⟨rest2, heq, hle⟩
            injection heq with e1 e2
            injection e2 with e3 e4
            exact absurd (And.intro e1 e3) h12
  · intro rest heq hle
    subst heq
    simp only [http.parse.body, hc, Option.bind_eq_bind, Option.some_bind,
      http.parse.take, if_pos hle]
  · intro i1 i2 m p v cr hs hd hrl hhi hf hCL
    refine ⟨?_, ?_, ?_⟩
    · intro hfu
      simp [Request.parse, hrl, hhi, hf, hCL, hfu]
    · intro hfu hpu
      simp [Request.parse, hrl, hhi, hf, hCL, hfu, hpu]
    · intro len hfu hpu hb
      simp [Request.parse, hrl, hhi, hf, hCL, hfu, hpu, hb]

/-- The C4 witness input: GET / HTTP/1.1, then Content-Length: 5, the
empty line, and only two body bytes. -/
def c4_input : List Nat :=
  [71, 69, 84, 32, 47, 32, 72, 84, 84, 80, 47, 49, 46, 49, 13, 10] ++
    (http.parse.content_length ++ [58, 32, 53, 13, 10, 13, 10, 120, 120])

/-- Witness for c4_body_contract_and_errors: the exact-slice part at
n = 2 on CRLF plus two bytes, and the Body error on a request whose
Content-Length of 5 exceeds the two available body bytes. -/
theorem c4_body_contract_and_errors_witness :
    http.parse.body 2 [13, 10, 120, 121] =
      some (([120, 121] : List Nat).drop 2, ([120, 121] : List Nat).take 2) ∧
    (Request.parse (Request.new [EMPTY_HEADER, EMPTY_HEADER]) c4_input).1 =
      some ParserError.Body :=
  ⟨(c4_body_contract_and_errors 2 [13, 10, 120, 121]
      (Request.new [EMPTY_HEADER, EMPTY_HEADER])).2.1 [120, 121] rfl (by decide),
   ((c4_body_contract_and_errors 5 c4_input
        (Request.new [EMPTY_HEADER, EMPTY_HEADER])).2.2
      (http.parse.content_length ++ [58, 32, 53, 13, 10, 13, 10, 120, 120])
      [13, 10, 120, 120]
      [71, 69, 84] [47] [49, 46, 49] [13, 10]
      [{ name := http.parse.content_length, value := [53] }, EMPTY_HEADER]
      { name := http.parse.content_length, value := [53] }
      (by decide) (by decide) (by decide) (by decide)).2.2
     5 (by decide) (by decide) (by decide)⟩
